import Mathlib

set_option maxRecDepth 1000000

/-!
Verification of the Smart-Contract-Scanner analysis core.

This file gives a shallow embedding of the analysis pipeline of the
repository (backend/app/services/ai_analyzer.py,
backend/app/services/analysis_orchestrator.py and the contract-dedup logic of
backend/app/api/routes/analyze.py) and proves properties of it.

Modelling conventions:
  - Python text is `List Char`; Python `str.strip`, `str.lower`, slicing and
    the regular expressions used by the source are modelled directly on
    character lists (ASCII-faithful; the source only manipulates ASCII
    protocol text).
  - A parsed JSON document is the inductive `JVal`; Python `None` and JSON
    `null` are both `JVal.null`, exactly as `json.loads` conflates them.
    JSON numbers are modelled as integers (the analysis pipeline never
    produces or consumes fractional numbers).
  - Exceptions are explicit: `Except PyError` for code that can raise,
    with `PyError.analysisError` for `AnalysisError`, `PyError.serviceError`
    for `AIServiceError` and `PyError.typeError` for the remaining dynamic
    errors (`TypeError`/`AttributeError`); message strings of the last kind
    are abbreviated, their exact text being irrelevant to control flow.
  - The two model calls of a run are inputs: a detection outcome and an
    oracle of per-finding explanation outcomes, each either raw response
    text or a raised `AIServiceError`.
-/

/-! ## Text utilities (Python string semantics on `List Char`) -/

/-- Whitespace stripped by Python `str.strip()`. -/
def isPySpace (c : Char) : Bool :=
  c = ' ' || c = '\t' || c = '\n' || c = '\x0d' || c = '\x0b' || c = '\x0c'

/-- Drop trailing characters satisfying `p`. -/
def dropTrailing (p : Char → Bool) (s : List Char) : List Char :=
  (s.reverse.dropWhile p).reverse

/-- Python `str.strip()`. -/
def pyStrip (s : List Char) : List Char :=
  dropTrailing isPySpace (s.dropWhile isPySpace)

/-- ASCII lower-casing of one character (Python `str.lower` on ASCII text). -/
def lowerChar (c : Char) : Char :=
  if 'A' ≤ c ∧ c ≤ 'Z' then Char.ofNat (c.toNat + 32) else c

/-- ASCII lower-casing of a string (Python `str.lower` on ASCII text). -/
def lowerAscii (s : List Char) : List Char :=
  s.map lowerChar

/-- Python `str.endswith`. -/
def listEndsWith (s t : List Char) : Bool :=
  t.reverse.isPrefixOf s.reverse

/-- Python `needle in haystack` on strings (substring test). -/
def hasSubtext (needle : List Char) : List Char → Bool
  | [] => needle.isEmpty
  | c :: rest => needle.isPrefixOf (c :: rest) || hasSubtext needle rest

/-- Python non-overlapping two-character `str.replace`, replacement one
character long (used for the source's `replace('\\"', '"')` and
`replace('\\n', '\n')`). -/
def replacePair (a b r : Char) : List Char → List Char
  | [] => []
  | [c] => [c]
  | x :: y :: rest =>
    if x = a ∧ y = b then r :: replacePair a b r rest
    else x :: replacePair a b r (y :: rest)

/-- Fuel-driven worker for `countSubstr`; the fuel is an upper bound on the
remaining text length. -/
def countSubstrAux (pat : List Char) : Nat → List Char → Nat
  | 0, _ => 0
  | _, [] => 0
  | fuel + 1, c :: rest =>
    if pat.isPrefixOf (c :: rest) then
      1 + countSubstrAux pat fuel (rest.drop (pat.length - 1))
    else countSubstrAux pat fuel rest

/-- Number of non-overlapping occurrences of a nonempty pattern,
Python `str.count` semantics for the source's `count("function ")`. -/
def countSubstr (pat s : List Char) : Nat :=
  countSubstrAux pat s.length s

/-- Python `len(code.split(sep))` for a one-character separator:
count of separators plus one. -/
def splitCount (sep : Char) (s : List Char) : Nat :=
  (s.filter (· = sep)).length + 1

/-! ## JSON documents -/

/-- A parsed JSON document; `null` also stands for Python `None`,
exactly as `json.loads` maps JSON `null` to `None`. -/
inductive JVal where
  | null
  | bool (b : Bool)
  | num (n : Int)
  | str (s : List Char)
  | arr (elems : List JVal)
  | obj (fields : List (List Char × JVal))

mutual

/-- Structural equality test on JSON documents (an approximation of
Python `==` on parsed JSON data, adequate for the protocol values the
pipeline compares). -/
def JVal.beq : JVal → JVal → Bool
  | .null, .null => true
  | .bool a, .bool b => a = b
  | .num a, .num b => a = b
  | .str a, .str b => a = b
  | .arr xs, .arr ys => JVal.beqList xs ys
  | .obj fs, .obj gs => JVal.beqFields fs gs
  | _, _ => false

/-- Elementwise equality test on lists of JSON documents. -/
def JVal.beqList : List JVal → List JVal → Bool
  | [], [] => true
  | x :: xs, y :: ys => JVal.beq x y && JVal.beqList xs ys
  | _, _ => false

/-- Elementwise equality test on JSON object fields. -/
def JVal.beqFields : List (List Char × JVal) → List (List Char × JVal) → Bool
  | [], [] => true
  | (k, v) :: fs, (k', v') :: gs => k = k' && JVal.beq v v' && JVal.beqFields fs gs
  | _, _ => false

end

/-! ## A model of `json.loads`

A recursive-descent parser with fuel; it accepts the JSON fragment the
pipeline exercises (objects, arrays, strings with the common escapes,
integers, `true`/`false`/`null`) and rejects everything else, matching
`json.loads` on that fragment: surrounding whitespace is allowed, trailing
non-whitespace input is an error, later duplicate object keys win at lookup
time (see `pyLookup`). Fractional and exponent number forms are out of the
modelled fragment. -/

/-- JSON structural whitespace. -/
def isJsonWs (c : Char) : Bool :=
  c = ' ' || c = '\t' || c = '\n' || c = '\x0d'

/-- Skip JSON whitespace. -/
def skipWs (s : List Char) : List Char :=
  s.dropWhile isJsonWs

/-- Decode one string-escape character (after a backslash). -/
def unescapeChar (c : Char) : Option Char :=
  if c = 'n' then some '\n'
  else if c = 't' then some '\t'
  else if c = 'r' then some '\x0d'
  else if c = 'b' then some '\x08'
  else if c = 'f' then some '\x0c'
  else if c = '"' then some '"'
  else if c = '\\' then some '\\'
  else if c = '/' then some '/'
  else none

/-- Parse the body of a JSON string after the opening quote; returns the
decoded content and the input after the closing quote. -/
def parseStrBody : List Char → Option (List Char × List Char)
  | [] => none
  | c :: rest =>
    if c = '"' then some ([], rest)
    else if c = '\\' then
      match rest with
      | [] => none
      | e :: rest' =>
        match unescapeChar e with
        | none => none
        | some d =>
          match parseStrBody rest' with
          | none => none
          | some (content, rem) => some (d :: content, rem)
    else
      match parseStrBody rest with
      | none => none
      | some (content, rem) => some (c :: content, rem)

/-- Digit run to a natural number; fails on an empty run. -/
def parseDigits (s : List Char) : Option (Nat × List Char) :=
  let ds := s.takeWhile (·.isDigit)
  if ds.isEmpty then none
  else some (ds.foldl (fun acc c => acc * 10 + (c.toNat - '0'.toNat)) 0, s.drop ds.length)

/-- Parse one atomic JSON value (literal, string or integer) at the head
of the input. -/
def parseAtom (s : List Char) : Option (JVal × List Char) :=
  match s with
  | [] => none
  | c :: rest =>
    if c = 'n' then
      if ['u', 'l', 'l'].isPrefixOf rest then some (.null, rest.drop 3) else none
    else if c = 't' then
      if ['r', 'u', 'e'].isPrefixOf rest then some (.bool true, rest.drop 3) else none
    else if c = 'f' then
      if ['a', 'l', 's', 'e'].isPrefixOf rest then some (.bool false, rest.drop 4) else none
    else if c = '"' then
      match parseStrBody rest with
      | none => none
      | some (content, rem) => some (.str content, rem)
    else if c = '-' then
      match parseDigits rest with
      | none => none
      | some (n, rem) => some (.num (-(n : Int)), rem)
    else if c.isDigit then
      match parseDigits (c :: rest) with
      | none => none
      | some (n, rem) => some (.num (n : Int), rem)
    else none

mutual

/-- Parse the elements of a JSON array after the opening bracket. -/
def parseElems : Nat → List Char → Option (List JVal × List Char)
  | 0, _ => none
  | fuel + 1, s =>
    match skipWs s with
    | ']' :: rest => some ([], rest)
    | s' =>
      match parseValFull fuel s' with
      | none => none
      | some (v, rem) =>
        match skipWs rem with
        | ',' :: rest =>
          match parseElems fuel rest with
          | none => none
          | some (vs, rem') => some (v :: vs, rem')
        | ']' :: rest => some ([v], rest)
        | _ => none

/-- Parse the fields of a JSON object after the opening brace. -/
def parseFields : Nat → List Char → Option (List (List Char × JVal) × List Char)
  | 0, _ => none
  | fuel + 1, s =>
    match skipWs s with
    | '"' :: rest =>
      match parseStrBody rest with
      | none => none
      | some (key, rem) =>
        match skipWs rem with
        | ':' :: rem' =>
          match parseValFull fuel (skipWs rem') with
          | none => none
          | some (v, rem'') =>
            match skipWs rem'' with
            | ',' :: rest' =>
              match parseFields fuel rest' with
              | none => none
              | some (fs, remF) => some ((key, v) :: fs, remF)
            | c :: rest' =>
              if c = Char.ofNat 125 then some ([(key, v)], rest') else none
            | _ => none
        | _ => none
    | c :: rest =>
      if c = Char.ofNat 125 then some ([], rest) else none
    | _ => none

/-- Parse one JSON value, including composite values. -/
def parseValFull : Nat → List Char → Option (JVal × List Char)
  | 0, _ => none
  | fuel + 1, s =>
    match s with
    | c :: rest =>
      if c = Char.ofNat 123 then
        match parseFields fuel rest with
        | none => none
        | some (fs, rem) => some (.obj fs, rem)
      else if c = '[' then
        match parseElems fuel rest with
        | none => none
        | some (vs, rem) => some (.arr vs, rem)
      else parseAtom s
    | [] => none

end

/-- Model of Python `json.loads`: parse a complete document, allowing
surrounding whitespace, rejecting trailing input. -/
def jsonParse (s : List Char) : Option JVal :=
  match parseValFull (s.length + 1) (skipWs s) with
  | none => none
  | some (v, rem) => if skipWs rem = [] then some v else none

example : jsonParse "null".data = some .null := rfl
example : jsonParse " \x7b \x7d ".data = some (.obj []) := rfl
example : jsonParse "\x7b\"a\": [1, -2], \"b\": \"x\"\x7d".data =
    some (.obj [(['a'], .arr [.num 1, .num (-2)]), (['b'], .str ['x'])]) := rfl
example : jsonParse "\x7b\"a\": 1".data = none := rfl
example : jsonParse "\x7b\"a\": true\x7d x".data = none := rfl

/-! ## Python dictionary operations on parsed JSON objects

`json.loads` builds a `dict` in which a later duplicate key overwrites an
earlier one, so lookup takes the last binding. -/

/-- Python `dict` lookup on a parsed JSON object's field list
(later duplicate keys win, as in `json.loads`). -/
def pyLookup (fields : List (List Char × JVal)) (k : List Char) : Option JVal :=
  match fields.reverse.find? (fun p => p.1 == k) with
  | some p => some p.2
  | none => none

/-- Python `d.get(k, default)`: the stored value when the key is bound
(even when bound to `null`/`None`), the default otherwise. -/
def pyGetD (fields : List (List Char × JVal)) (k : List Char) (dflt : JVal) : JVal :=
  (pyLookup fields k).getD dflt

/-- Python `k in d` for a dict. -/
def pyHasKey (fields : List (List Char × JVal)) (k : List Char) : Bool :=
  fields.any (fun p => p.1 == k)

/-! ## The response parser (`AIAnalyzer._parse_json_response` and helpers) -/

/-- Characters matched by the source's control-character pattern
(code points 0x00 to 0x1F and 0x7F to 0x9F). -/
def isCtrlLatin (c : Char) : Bool :=
  c.toNat ≤ 0x1f || (0x7f ≤ c.toNat && c.toNat ≤ 0x9f)

/-- Collapse every run of two or more spaces to a single space
(the source's substitution of the pattern matching one or more spaces). -/
def collapseSpaces : List Char → List Char
  | [] => []
  | [c] => [c]
  | c1 :: c2 :: rest =>
    if c1 = ' ' && c2 = ' ' then collapseSpaces (c2 :: rest)
    else c1 :: collapseSpaces (c2 :: rest)

/-- Model of `AIAnalyzer._clean_json_string`: control characters become
spaces, then space runs collapse. The source's intermediate `replace` calls
for newline, carriage return and tab are identities at that point, those
characters having already been replaced by the control-character
substitution. -/
def clean_json_string (s : List Char) : List Char :=
  collapseSpaces (s.map (fun c => if isCtrlLatin c then ' ' else c))

/-- The tagged code-fence marker stripped by the parser. -/
def fenceJson : List Char := "```json".data

/-- The bare code-fence marker stripped by the parser. -/
def fenceBare : List Char := "```".data

/-- First fence-stripping statement: drop a leading tagged fence marker. -/
def dropFenceJson (s : List Char) : List Char :=
  if fenceJson.isPrefixOf s then s.drop 7 else s

/-- Second fence-stripping statement: drop a leading bare fence marker. -/
def dropFenceBare (s : List Char) : List Char :=
  if fenceBare.isPrefixOf s then s.drop 3 else s

/-- Third fence-stripping statement: drop a trailing fence marker. -/
def dropFenceEnd (s : List Char) : List Char :=
  if listEndsWith s fenceBare then s.take (s.length - 3) else s

/-- The whitespace- and fence-stripping preamble of
`_parse_json_response` (its first five statements, in source order). -/
def stripFences (response : List Char) : List Char :=
  pyStrip (dropFenceEnd (dropFenceBare (dropFenceJson (pyStrip response))))

/-- The substring from the first opening brace to the last closing brace of
the cleaned text (strategy three of `_parse_json_response`), when the
source's index conditions hold. -/
def braceSlice (cleaned : List Char) : Option (List Char) :=
  match cleaned.findIdx? (· == Char.ofNat 123), cleaned.reverse.findIdx? (· == Char.ofNat 125) with
  | some st, some revEn =>
    let en := cleaned.length - 1 - revEn
    if st ≤ en then some ((cleaned.drop st).take (en + 1 - st)) else none
  | _, _ => none

/-- Characters matched by the whitespace class of the source's field
extraction patterns. -/
def isReWs (c : Char) : Bool :=
  c = ' ' || c = '\t' || c = '\n' || c = '\x0d' || c = '\x0b' || c = '\x0c'

/-- Attempt the field-extraction pattern for `key` anchored at the head of
`s`: a quoted key, optional whitespace, a colon, optional whitespace, then a
quoted value. The backtracking engine's first success captures the maximal
quote-free run after the opening value quote, so the capture is the text up
to the first quote, and succeeds exactly when a closing quote follows. -/
def matchKeyValueAt (key s : List Char) : Option (List Char) :=
  if ('"' :: (key ++ ['"'])).isPrefixOf s then
    match (s.drop (key.length + 2)).dropWhile isReWs with
    | ':' :: rest2 =>
      match rest2.dropWhile isReWs with
      | '"' :: content0 =>
        let content := content0.takeWhile (· ≠ '"')
        if content0.drop content.length = [] then none else some content
      | _ => none
    | _ => none
  else none

/-- Leftmost match of the field-extraction pattern (`re.search`). -/
def scanKey (key : List Char) : List Char → Option (List Char)
  | [] => none
  | c :: rest =>
    match matchKeyValueAt key (c :: rest) with
    | some v => some v
    | none => scanKey key rest

/-- Field names collected by `_extract_fields_manually`, in source order. -/
def descriptionKey : List Char := "description".data

/-- Impact field name. -/
def impactKey : List Char := "impact".data

/-- Recommendation field name. -/
def recommendationKey : List Char := "recommendation".data

/-- Corrected-code field name. -/
def fixedCodeKey : List Char := "fixed_code".data

/-- The fields `_extract_fields_manually` collects, in source order:
captured values unescape `\"` to `"` (and, for the code field, `\n` to a
line break). -/
def extractedFields (response : List Char) : List (List Char × JVal) :=
  (match scanKey descriptionKey response with
    | some v => [(descriptionKey, JVal.str (replacePair '\\' '"' '"' v))]
    | none => []) ++
  (match scanKey impactKey response with
    | some v => [(impactKey, JVal.str (replacePair '\\' '"' '"' v))]
    | none => []) ++
  (match scanKey recommendationKey response with
    | some v => [(recommendationKey, JVal.str (replacePair '\\' '"' '"' v))]
    | none => []) ++
  (match scanKey fixedCodeKey response with
    | some v => [(fixedCodeKey, JVal.str (replacePair '\\' 'n' '\n' (replacePair '\\' '"' '"' v)))]
    | none => [])

/-- Model of `AIAnalyzer._extract_fields_manually`: regex extraction of the
four explanation fields; `none` models the Python `None` returned when no
field matched (the empty dict is falsy). -/
def extract_fields_manually (response : List Char) : Option (List (List Char × JVal)) :=
  if (extractedFields response).isEmpty then none else some (extractedFields response)

/-- Error marker of the sentinel failure mapping. -/
def errorKey : List Char := "error".data

/-- Raw-text field of the sentinel failure mapping. -/
def rawKey : List Char := "raw".data

/-- Message stored under the sentinel's error marker. -/
def parseFailText : List Char := "Failed to parse AI response".data

/-- The sentinel failure mapping: an error marker plus the first 200
characters of the (stripped) response text. -/
def sentinelOf (r : List Char) : JVal :=
  .obj [(errorKey, .str parseFailText), (rawKey, .str (r.take 200))]

/-- Manual-extraction fallback of `_parse_json_response`: the extracted
fields when any matched, otherwise the sentinel failure mapping. -/
def manualFallback (r : List Char) : JVal :=
  match extract_fields_manually r with
  | some fields => .obj fields
  | none => sentinelOf r

/-- Strategies of `_parse_json_response` after the stripping preamble:
direct parse, parse after cleaning, parse of the brace slice, manual
extraction, then the sentinel. -/
def parseCore (r : List Char) : JVal :=
  match jsonParse r with
  | some v => v
  | none =>
    match jsonParse (clean_json_string r) with
    | some v => v
    | none =>
      match braceSlice (clean_json_string r) with
      | some sub =>
        match jsonParse sub with
        | some v => v
        | none => manualFallback r
      | none => manualFallback r

/-- Model of `AIAnalyzer._parse_json_response` (the debug prints of the
source do not affect its value). -/
def parse_json_response (response : List Char) : JVal :=
  parseCore (stripFences response)

example : parse_json_response "```json\n\x7b\"total_issues\": 0\x7d\n```".data =
    .obj [("total_issues".data, .num 0)] := rfl
example : parse_json_response "no json here".data =
    .obj [(errorKey, .str parseFailText), (rawKey, .str "no json here".data)] := rfl
example : parse_json_response "prose \x7b\"a\": 1\x7d prose".data =
    .obj [(['a'], .num 1)] := rfl
example : parse_json_response "bad \"description\": \"hmm\" bad".data =
    .obj [(descriptionKey, .str "hmm".data)] := rfl

/-! ## Dynamic-error model for the orchestrator -/

/-- Exceptions the orchestrator's `try` body can raise:
`analysisError` for `AnalysisError` (message plus `details`),
`serviceError` for `AIServiceError`, and `typeError` for the remaining
dynamic errors (`TypeError`/`AttributeError`; their message text is
abbreviated, only the handler they reach matters). -/
inductive PyError where
  | analysisError (msg : List Char) (details : JVal)
  | serviceError (msg : List Char)
  | typeError (msg : List Char)

/-- Outcome of one model call: response text, or a raised
`AIServiceError` (timeout, connection failure, bad status). -/
inductive AIOutcome where
  | resp (text : List Char)
  | fail (msg : List Char)

/-- Python `.lower()` on a fetched JSON value: succeeds only on strings,
raises `AttributeError` otherwise. -/
def pyLower (v : JVal) : Except PyError (List Char) :=
  match v with
  | .str s => .ok (lowerAscii s)
  | _ => .error (.typeError "lower".data)

/-- Python `needle in container` for a parsed JSON value: key membership on
a dict, element membership on a list, substring test on a string,
`TypeError` otherwise. -/
def pyContains (needle : List Char) (v : JVal) : Except PyError Bool :=
  match v with
  | .obj fs => .ok (pyHasKey fs needle)
  | .arr xs => .ok (xs.any (fun x => JVal.beq x (.str needle)))
  | .str s => .ok (hasSubtext needle s)
  | _ => .error (.typeError "contains".data)

/-- Python `v.get(k, default)` on a parsed JSON value: `AttributeError`
unless `v` is a dict. -/
def pyDictGetD (v : JVal) (k : List Char) (dflt : JVal) : Except PyError JVal :=
  match v with
  | .obj fs => .ok (pyGetD fs k dflt)
  | _ => .error (.typeError "get".data)

/-- Python iteration over the fetched `vulnerabilities` value: a list
yields its elements, a string its characters, a dict its keys; other values
raise `TypeError`. -/
def iterVulns (v : JVal) : Except PyError (List JVal) :=
  match v with
  | .arr xs => .ok xs
  | .str s => .ok (s.map (fun c => JVal.str [c]))
  | .obj fs => .ok (fs.map (fun p => JVal.str p.1))
  | _ => .error (.typeError "iter".data)

/-! ## The orchestrator (`AnalysisOrchestrator`) -/

/-- Lifecycle status of an analysis run (`models.AnalysisStatus`). -/
inductive AnalysisStatus where
  | pending
  | processing
  | completed
  | failed
deriving DecidableEq

/-- The analysis-run fields the orchestrator reads or writes
(`models.Analysis`; timestamps and durations are not modelled, they carry
no logic). -/
structure RunState where
  status : AnalysisStatus
  error_message : Option (List Char)
  overall_risk : Option (List Char)
  risk_score : Option Nat
  summary : Option JVal
  total_lines : Option Nat
  functions_analyzed : Option Nat

/-- A persisted finding (`models.Vulnerability`) as the orchestrator
constructs it; `vtype` stands for the source's `type` column. Values taken
from parsed JSON stay `JVal`: an absent optional column is `null`, exactly
as the Python constructor receives `None`. -/
structure VulnRec where
  vtype : List Char
  severity : List Char
  confidence : List Char
  line_start : JVal
  line_end : JVal
  function_name : JVal
  code_snippet : JVal
  description : JVal
  impact : JVal
  recommendation : JVal
  fixed_code : JVal

/-- Detection field name `type`. -/
def typeKey : List Char := "type".data

/-- Detection field name `severity`. -/
def severityKey : List Char := "severity".data

/-- Detection field name `confidence`. -/
def confidenceKey : List Char := "confidence".data

/-- Detection field name `line_start`. -/
def lineStartKey : List Char := "line_start".data

/-- Detection field name `line_end`. -/
def lineEndKey : List Char := "line_end".data

/-- Detection field name `function_name`. -/
def functionNameKey : List Char := "function_name".data

/-- Detection field name `vulnerable_code`. -/
def vulnerableCodeKey : List Char := "vulnerable_code".data

/-- Detection field name `brief_reason`. -/
def briefReasonKey : List Char := "brief_reason".data

/-- Detection response key holding the finding list. -/
def vulnerabilitiesKey : List Char := "vulnerabilities".data

/-- Detection response key holding the run summary. -/
def summaryKey : List Char := "summary".data

/-- Closed vocabulary of vulnerability categories. -/
def vulnTypeVocab : List (List Char) :=
  ["reentrancy".data, "integer_overflow".data, "access_control".data,
   "unchecked_call".data, "frontrunning".data]

/-- Closed vocabulary of severities; also the precedence order of
`_get_highest_severity`, highest first. -/
def severity_order : List (List Char) :=
  ["critical".data, "high".data, "medium".data, "low".data, "info".data]

/-- Closed vocabulary of confidence levels. -/
def confidenceVocab : List (List Char) :=
  ["high".data, "medium".data, "low".data]

/-- One iteration of the orchestrator's per-finding loop after the
explanation call: normalize category, severity and confidence against the
closed vocabularies, then build the `Vulnerability` row; fetching
explanation fields raises unless the parsed explanation is a dict. -/
def mkVuln (fields : List (List Char × JVal)) (explanation : JVal) :
    Except PyError VulnRec :=
  match pyLower (pyGetD fields typeKey (.str "other".data)) with
  | .error e => .error e
  | .ok t0 =>
  let t := if vulnTypeVocab.contains t0 then t0 else "other".data
  match pyLower (pyGetD fields severityKey (.str "medium".data)) with
  | .error e => .error e
  | .ok s0 =>
  let s := if severity_order.contains s0 then s0 else "medium".data
  match pyLower (pyGetD fields confidenceKey (.str "medium".data)) with
  | .error e => .error e
  | .ok c0 =>
  let c := if confidenceVocab.contains c0 then c0 else "medium".data
  match explanation with
  | .obj efs =>
    .ok { vtype := t, severity := s, confidence := c,
          line_start := pyGetD fields lineStartKey .null,
          line_end := pyGetD fields lineEndKey .null,
          function_name := pyGetD fields functionNameKey .null,
          code_snippet := pyGetD fields vulnerableCodeKey .null,
          description := pyGetD efs descriptionKey
            (pyGetD fields briefReasonKey (.str [])),
          impact := pyGetD efs impactKey .null,
          recommendation := pyGetD efs recommendationKey .null,
          fixed_code := pyGetD efs fixedCodeKey .null }
  | _ => .error (.typeError "get".data)

/-- The orchestrator's per-finding loop. Returns the rows added to the
session before the first failure, and that failure when one occurred: a
finding whose explanation call raised is not added, but rows added in
earlier iterations stay pending in the session. -/
def processVulns (explains : Nat → AIOutcome) :
    List JVal → Nat → List VulnRec × Option PyError
  | [], _ => ([], none)
  | vd :: rest, i =>
    match vd with
    | .obj fields =>
      match explains i with
      | .fail msg => ([], some (.serviceError msg))
      | .resp text =>
        match mkVuln fields (parse_json_response text) with
        | .error e => ([], some e)
        | .ok r =>
          let (more, err) := processVulns explains rest (i + 1)
          (r :: more, err)
    | _ => ([], some (.typeError "get".data))

/-- Severity of one pre-normalization finding as `_get_highest_severity`
reads it: `vuln.get("severity", "").lower()`. -/
def sevOfVulnGHS (v : JVal) : Except PyError (List Char) :=
  match v with
  | .obj fs => pyLower (pyGetD fs severityKey (.str []))
  | _ => .error (.typeError "get".data)

/-- Inner loop of `_get_highest_severity`: does any finding report the
target severity? -/
def findSevMatch (target : List Char) : List JVal → Except PyError Bool
  | [] => .ok false
  | v :: rest =>
    match sevOfVulnGHS v with
    | .error e => .error e
    | .ok s => if s = target then .ok true else findSevMatch target rest

/-- Outer loop of `_get_highest_severity` over the precedence order;
falls through to `info`. -/
def ghsLoop (vulns : List JVal) : List (List Char) → Except PyError (List Char)
  | [] => .ok "info".data
  | sev :: more =>
    match findSevMatch sev vulns with
    | .error e => .error e
    | .ok true => .ok sev
    | .ok false => ghsLoop vulns more

/-- Model of `AnalysisOrchestrator._get_highest_severity`. -/
def get_highest_severity (vulns : List JVal) : Except PyError (List Char) :=
  if vulns.isEmpty then .ok "info".data
  else ghsLoop vulns severity_order

/-- Fixed per-severity points of `_calculate_risk_score`
(`severity_scores.get(severity, 10)`). -/
def severityPoints (s : List Char) : Nat :=
  if s = "critical".data then 40
  else if s = "high".data then 25
  else if s = "medium".data then 15
  else if s = "low".data then 5
  else if s = "info".data then 1
  else 10

/-- Accumulation loop of `_calculate_risk_score`; severity read as
`vuln.get("severity", "medium").lower()`. -/
def scoreLoop : List JVal → Except PyError Nat
  | [] => .ok 0
  | v :: rest =>
    match v with
    | .obj fs =>
      match pyLower (pyGetD fs severityKey (.str "medium".data)) with
      | .error e => .error e
      | .ok s =>
        match scoreLoop rest with
        | .error e => .error e
        | .ok n => .ok (severityPoints s + n)
    | _ => .error (.typeError "get".data)

/-- Model of `AnalysisOrchestrator._calculate_risk_score`. -/
def calculate_risk_score (vulns : List JVal) : Except PyError Nat :=
  if vulns.isEmpty then .ok 0
  else
    match scoreLoop vulns with
    | .error e => .error e
    | .ok total => .ok (min 100 total)

/-- Message of the `AnalysisError` raised on a detection-parse failure. -/
def detectionFailMsg : List Char := "Failed to parse AI detection response".data

/-- Fallback summary text `Found N potential vulnerabilities`. -/
def defaultSummary (n : Nat) : List Char :=
  "Found ".data ++ Nat.toDigits 10 n ++ " potential vulnerabilities".data

/-- The `try` body of `analyze_contract` after the transition to
`processing`: detection call, sentinel check, per-finding loop, aggregation
and the completed-state update. The first component is the list of finding
rows pending in the session when the body finishes or raises. -/
def tryBody (run1 : RunState) (contract_code : List Char) (detectOut : AIOutcome)
    (explains : Nat → AIOutcome) : List VulnRec × Except PyError RunState :=
  match detectOut with
  | .fail msg => ([], .error (.serviceError msg))
  | .resp text =>
    let dr := parse_json_response text
    match pyContains errorKey dr with
    | .error e => ([], .error e)
    | .ok true =>
      match pyDictGetD dr rawKey (.str []) with
      | .error e => ([], .error e)
      | .ok raw => ([], .error (.analysisError detectionFailMsg raw))
    | .ok false =>
      match pyDictGetD dr vulnerabilitiesKey (.arr []) with
      | .error e => ([], .error e)
      | .ok vv =>
        match iterVulns vv with
        | .error e => ([], .error e)
        | .ok items =>
          match processVulns explains items 0 with
          | (pend, some e) => (pend, .error e)
          | (pend, none) =>
            match get_highest_severity items with
            | .error e => (pend, .error e)
            | .ok hs =>
              match calculate_risk_score items with
              | .error e => (pend, .error e)
              | .ok rs =>
                match pyDictGetD dr summaryKey (.str (defaultSummary items.length)) with
                | .error e => (pend, .error e)
                | .ok sm =>
                  (pend, .ok { run1 with
                    status := .completed,
                    overall_risk := some hs,
                    risk_score := some rs,
                    summary := some sm,
                    total_lines := some (splitCount '\n' contract_code),
                    functions_analyzed := some (countSubstr "function ".data contract_code) })

/-- What `analyze_contract` leaves behind: the committed run record, the
findings durably persisted by a commit, and the `AnalysisError` raised to
the caller (message and `details`), when one was. -/
structure OrchResult where
  run : RunState
  persisted : List VulnRec
  raised : Option (List Char × JVal)

/-- Message prefix of the wrapping `AnalysisError` of the generic handler. -/
def analysisFailedText : List Char := "Analysis failed: ".data

/-- Model of `AnalysisOrchestrator.analyze_contract` on an existing run:
set `processing` and commit, run the body, then apply the source's two
exception handlers. An `AnalysisError` raised inside the body is re-raised
unchanged, with no status update and no commit (so nothing pending is
persisted); any other exception sets `failed` plus the error message and
commits — which also flushes the findings already added to the session. -/
def analyze_contract (run0 : RunState) (contract_code : List Char)
    (detectOut : AIOutcome) (explains : Nat → AIOutcome) : OrchResult :=
  let run1 := { run0 with status := .processing }
  match tryBody run1 contract_code detectOut explains with
  | (pend, .ok runF) => ⟨runF, pend, none⟩
  | (_, .error (.analysisError m d)) => ⟨run1, [], some (m, d)⟩
  | (pend, .error (.serviceError m)) =>
    ⟨{ run1 with status := .failed, error_message := some m }, pend,
      some (analysisFailedText ++ m, .null)⟩
  | (pend, .error (.typeError m)) =>
    ⟨{ run1 with status := .failed, error_message := some m }, pend,
      some (analysisFailedText ++ m, .null)⟩

/-- A fresh run record as the route creates it, before orchestration. -/
def freshRun : RunState :=
  ⟨.pending, none, none, none, none, none, none⟩

/-! ## Content hashing and contract deduplication (`routes/analyze.py`)

`get_code_hash` is `hashlib.sha256(code.encode()).hexdigest()`; SHA-256
(FIPS 180-4) is implemented here over naturals reduced modulo `2 ^ 32`. -/

/-- UTF-8 encoding of one character (Python `str.encode()`). -/
def utf8Char (c : Char) : List Nat :=
  let n := c.toNat
  if n < 0x80 then [n]
  else if n < 0x800 then
    [0xC0 ||| (n >>> 6), 0x80 ||| (n &&& 0x3F)]
  else if n < 0x10000 then
    [0xE0 ||| (n >>> 12), 0x80 ||| ((n >>> 6) &&& 0x3F), 0x80 ||| (n &&& 0x3F)]
  else
    [0xF0 ||| (n >>> 18), 0x80 ||| ((n >>> 12) &&& 0x3F),
     0x80 ||| ((n >>> 6) &&& 0x3F), 0x80 ||| (n &&& 0x3F)]

/-- UTF-8 encoding of a string as a byte list. -/
def utf8Encode (s : List Char) : List Nat :=
  s.foldr (fun c acc => utf8Char c ++ acc) []

/-- Reduce modulo the 32-bit word size. -/
def w32 (n : Nat) : Nat := n % 4294967296

/-- Rotate a 32-bit word right by `k`. -/
def rotr32 (k x : Nat) : Nat := w32 ((x >>> k) ||| (x <<< (32 - k)))

/-- Bitwise complement within 32 bits. -/
def not32 (x : Nat) : Nat := x ^^^ 0xFFFFFFFF

/-- SHA-256 message-schedule sigma-0. -/
def ssig0 (x : Nat) : Nat := (rotr32 7 x ^^^ rotr32 18 x) ^^^ (x >>> 3)

/-- SHA-256 message-schedule sigma-1. -/
def ssig1 (x : Nat) : Nat := (rotr32 17 x ^^^ rotr32 19 x) ^^^ (x >>> 10)

/-- SHA-256 round function Sigma-0. -/
def bsig0 (x : Nat) : Nat := (rotr32 2 x ^^^ rotr32 13 x) ^^^ rotr32 22 x

/-- SHA-256 round function Sigma-1. -/
def bsig1 (x : Nat) : Nat := (rotr32 6 x ^^^ rotr32 11 x) ^^^ rotr32 25 x

/-- SHA-256 choose function. -/
def shaCh (x y z : Nat) : Nat := (x &&& y) ^^^ (not32 x &&& z)

/-- SHA-256 majority function. -/
def shaMaj (x y z : Nat) : Nat := ((x &&& y) ^^^ (x &&& z)) ^^^ (y &&& z)

/-- SHA-256 round constants. -/
def sha256K : List Nat :=
  [1116352408, 1899447441, 3049323471, 3921009573,
   961987163, 1508970993, 2453635748, 2870763221,
   3624381080, 310598401, 607225278, 1426881987,
   1925078388, 2162078206, 2614888103, 3248222580,
   3835390401, 4022224774, 264347078, 604807628,
   770255983, 1249150122, 1555081692, 1996064986,
   2554220882, 2821834349, 2952996808, 3210313671,
   3336571891, 3584528711, 113926993, 338241895,
   666307205, 773529912, 1294757372, 1396182291,
   1695183700, 1986661051, 2177026350, 2456956037,
   2730485921, 2820302411, 3259730800, 3345764771,
   3516065817, 3600352804, 4094571909, 275423344,
   430227734, 506948616, 659060556, 883997877,
   958139571, 1322822218, 1537002063, 1747873779,
   1955562222, 2024104815, 2227730452, 2361852424,
   2428436474, 2756734187, 3204031479, 3329325298]

/-- SHA-256 initial hash state. -/
def sha256H0 : List Nat :=
  [1779033703,
   3144134277,
   1013904242,
   2773480762,
   1359893119,
   2600822924,
   528734635,
   1541459225]

/-- Big-endian eight-byte rendering of the bit length. -/
def be64 (n : Nat) : List Nat :=
  [(n >>> 56) % 256, (n >>> 48) % 256, (n >>> 40) % 256, (n >>> 32) % 256,
   (n >>> 24) % 256, (n >>> 16) % 256, (n >>> 8) % 256, n % 256]

/-- SHA-256 padding: append `0x80`, zeros to 56 modulo 64, then the
bit length. -/
def sha256Pad (msg : List Nat) : List Nat :=
  let L := msg.length
  let k := (64 + 56 - (L + 1) % 64) % 64
  msg ++ (0x80 :: List.replicate k 0) ++ be64 (L * 8)

/-- Big-endian four-byte groups to 32-bit words. -/
def toWordsBE : List Nat → List Nat
  | b0 :: b1 :: b2 :: b3 :: rest => (((b0 * 256 + b1) * 256 + b2) * 256 + b3) :: toWordsBE rest
  | _ => []

/-- Split a word list into 16-word blocks (fuel-driven worker). -/
def chunks16Aux : Nat → List Nat → List (List Nat)
  | 0, _ => []
  | _, [] => []
  | fuel + 1, ws => ws.take 16 :: chunks16Aux fuel (ws.drop 16)

/-- Split a word list into 16-word blocks. -/
def chunks16 (ws : List Nat) : List (List Nat) :=
  chunks16Aux ws.length ws

/-- Extend the message schedule by `n` words; `acc` holds the schedule so
far, most recent word first. -/
def extendSched : Nat → List Nat → List Nat
  | 0, acc => acc
  | n + 1, acc =>
    let g := fun k => acc.getD (k - 1) 0
    extendSched n (w32 (ssig1 (g 2) + g 7 + ssig0 (g 15) + g 16) :: acc)

/-- The 64 compression rounds over paired round constants and schedule
words. -/
def sha256Rounds : List (Nat × Nat) →
    Nat × Nat × Nat × Nat × Nat × Nat × Nat × Nat →
    Nat × Nat × Nat × Nat × Nat × Nat × Nat × Nat
  | [], st => st
  | (k, w) :: rest, (a, b, c, d, e, f, g, h) =>
    let t1 := w32 (h + bsig1 e + shaCh e f g + k + w)
    let t2 := w32 (bsig0 a + shaMaj a b c)
    sha256Rounds rest (w32 (t1 + t2), a, b, c, w32 (d + t1), e, f, g)

/-- Compress one 16-word block into the running hash state. -/
def sha256Block (h : List Nat) (block : List Nat) : List Nat :=
  let sched := (extendSched 48 block.reverse).reverse
  let g := fun k => h.getD k 0
  let (a, b, c, d, e, f, g', h8) :=
    sha256Rounds (sha256K.zip sched) (g 0, g 1, g 2, g 3, g 4, g 5, g 6, g 7)
  [w32 (g 0 + a), w32 (g 1 + b), w32 (g 2 + c), w32 (g 3 + d),
   w32 (g 4 + e), w32 (g 5 + f), w32 (g 6 + g'), w32 (g 7 + h8)]

/-- SHA-256 of a byte list, as eight 32-bit words. -/
def sha256 (msg : List Nat) : List Nat :=
  (chunks16 (toWordsBE (sha256Pad msg))).foldl sha256Block sha256H0

/-- Lowercase hexadecimal digit. -/
def hexDigit (n : Nat) : Char :=
  if n < 10 then Char.ofNat (48 + n) else Char.ofNat (87 + n)

/-- Lowercase hexadecimal rendering of one 32-bit word. -/
def wordHex (w : Nat) : List Char :=
  [hexDigit ((w >>> 28) % 16), hexDigit ((w >>> 24) % 16),
   hexDigit ((w >>> 20) % 16), hexDigit ((w >>> 16) % 16),
   hexDigit ((w >>> 12) % 16), hexDigit ((w >>> 8) % 16),
   hexDigit ((w >>> 4) % 16), hexDigit (w % 16)]

/-- Model of `get_code_hash`:
`hashlib.sha256(code.encode()).hexdigest()`. -/
def get_code_hash (code : List Char) : List Char :=
  (sha256 (utf8Encode code)).foldr (fun w acc => wordHex w ++ acc) []

/-- A stored contract row (`models.Contract`), with the columns the dedup
logic touches; `cid` models the autogenerated primary key. -/
structure ContractRec where
  cid : Nat
  name : List Char
  code : List Char
  code_hash : List Char

/-- The route's dedup query: first stored contract whose `code_hash`
equals the submitted hash. -/
def findByHash (store : List ContractRec) (h : List Char) : Option ContractRec :=
  store.find? (fun c => c.code_hash == h)

/-- Contract resolution of `analyze_code` (routes/analyze.py lines 58-75):
hash the submitted code, reuse the existing contract with that hash, or
insert a new row. Returns the resolved contract and the updated store. -/
def analyze_code_contract (store : List ContractRec) (name code : List Char) :
    ContractRec × List ContractRec :=
  let h := get_code_hash code
  match findByHash store h with
  | some c => (c, store)
  | none =>
    let c : ContractRec := ⟨store.length, name, code, h⟩
    (c, store ++ [c])

example : get_code_hash "abc".data =
    "ba7816bf8f01cfea414140de5dae2223b00361a396177a9cb410ff61f20015ad".data := rfl

/-! ## Derived forms used to state the properties -/

/-- A stored optional value is either absent or a string (the shape under
which the orchestrator's `.lower()` calls cannot raise). -/
def isStrOrAbsent : Option JVal → Bool
  | none => true
  | some (.str _) => true
  | some _ => false

/-- Read a field expected to be a string, with a default for an absent
key; junk placeholder for a non-string binding (callers assume
`isStrOrAbsent`). -/
def readStrD (fields : List (List Char × JVal)) (k dflt : List Char) : List Char :=
  match pyLookup fields k with
  | some (.str s) => s
  | some _ => []
  | none => dflt

/-- The three normalized fields are readable as strings, so the
normalization steps of the per-finding loop cannot raise. -/
def normReady (fields : List (List Char × JVal)) : Bool :=
  isStrOrAbsent (pyLookup fields typeKey) &&
  isStrOrAbsent (pyLookup fields severityKey) &&
  isStrOrAbsent (pyLookup fields confidenceKey)

/-- A finding value whose severity read cannot raise. -/
def sevFieldWf (v : JVal) : Bool :=
  match v with
  | .obj fs => isStrOrAbsent (pyLookup fs severityKey)
  | _ => false

/-- Normalized category of a detection finding (§ normalizer). -/
def normType (fields : List (List Char × JVal)) : List Char :=
  let t := lowerAscii (readStrD fields typeKey "other".data)
  if vulnTypeVocab.contains t then t else "other".data

/-- Normalized severity of a detection finding. -/
def normSev (fields : List (List Char × JVal)) : List Char :=
  let s := lowerAscii (readStrD fields severityKey "medium".data)
  if severity_order.contains s then s else "medium".data

/-- Normalized confidence of a detection finding. -/
def normConf (fields : List (List Char × JVal)) : List Char :=
  let c := lowerAscii (readStrD fields confidenceKey "medium".data)
  if confidenceVocab.contains c then c else "medium".data

/-- The row the per-finding loop builds when nothing raises. -/
def mkVulnPure (fields efs : List (List Char × JVal)) : VulnRec :=
  { vtype := normType fields, severity := normSev fields, confidence := normConf fields,
    line_start := pyGetD fields lineStartKey .null,
    line_end := pyGetD fields lineEndKey .null,
    function_name := pyGetD fields functionNameKey .null,
    code_snippet := pyGetD fields vulnerableCodeKey .null,
    description := pyGetD efs descriptionKey (pyGetD fields briefReasonKey (.str [])),
    impact := pyGetD efs impactKey .null,
    recommendation := pyGetD efs recommendationKey .null,
    fixed_code := pyGetD efs fixedCodeKey .null }

/-- Severity of a pre-normalization finding as `_get_highest_severity`
reads it (empty-string default). -/
def ghsSevOf (v : JVal) : List Char :=
  match v with
  | .obj fs => lowerAscii (readStrD fs severityKey [])
  | _ => []

/-- Severity of a pre-normalization finding as `_calculate_risk_score`
reads it (`medium` default). -/
def scoreSevOf (v : JVal) : List Char :=
  match v with
  | .obj fs => lowerAscii (readStrD fs severityKey "medium".data)
  | _ => []

/-- Points one finding contributes to the risk score. -/
def riskPointsOf (v : JVal) : Nat :=
  severityPoints (scoreSevOf v)

/-- Sum of the per-finding points, before the cap. -/
def sumPoints (vulns : List JVal) : Nat :=
  (vulns.map riskPointsOf).sum

/-- Highest-precedence severity among the reported label list, `info` when
none of the five labels occurs. -/
def ghsSpec (svs : List (List Char)) : List Char :=
  if svs.any (· == "critical".data) then "critical".data
  else if svs.any (· == "high".data) then "high".data
  else if svs.any (· == "medium".data) then "medium".data
  else if svs.any (· == "low".data) then "low".data
  else "info".data

/-- Numeric precedence of a severity label (unrecognized text at the
bottom, beside `info`). -/
def sevRank (s : List Char) : Nat :=
  if s = "critical".data then 4
  else if s = "high".data then 3
  else if s = "medium".data then 2
  else if s = "low".data then 1
  else 0

/-- First label of a precedence list reported by some finding, `info` when
none is. -/
def firstPresentSev (vulns : List JVal) : List (List Char) → List Char
  | [] => "info".data
  | t :: more =>
    if vulns.any (fun v => ghsSevOf v == t) then t else firstPresentSev vulns more

/-! ## Concrete scenario inputs -/

/-- A detection response no parsing strategy can read. -/
def garbageDetection : List Char := "This is not JSON at all".data

/-- Another unreadable detection response. -/
def garbageDetection2 : List Char := "garbage detection output".data

/-- A small contract snippet used as the submitted code text. -/
def sampleCode : List Char :=
  "pragma solidity ^0.8.0; contract C \x7b function withdraw() public \x7b \x7d \x7d".data

/-- A detection response with one well-formed reentrancy finding. -/
def detOneFinding : List Char :=
  "\x7b\"vulnerabilities\": [\x7b\"type\": \"reentrancy\", \"severity\": \"high\", \"function_name\": \"withdraw\", \"brief_reason\": \"external call before state update\"\x7d], \"summary\": \"risky\", \"total_issues\": 1\x7d".data

/-- A detection response whose single finding reports an unrecognized
severity. -/
def detBogusSeverity : List Char :=
  "\x7b\"vulnerabilities\": [\x7b\"severity\": \"bogus\"\x7d]\x7d".data

/-- An explanation response that is not parseable JSON (every strategy
fails, producing the sentinel). -/
def explUnparseable : List Char := "model rambles with no structure".data

/-- An explanation response binding `description` to JSON null. -/
def explNullDescription : List Char := "\x7b\"description\": null\x7d".data

/-- Findings with severities low, critical and medium, the example of the
highest-severity contract. -/
def exampleSevFindings : List JVal :=
  [.obj [(severityKey, .str "low".data)], .obj [(severityKey, .str "critical".data)],
   .obj [(severityKey, .str "medium".data)]]

/-- Parsed fields of the finding inside `detOneFinding`. -/
def detOneFields : List (List Char × JVal) :=
  [(typeKey, .str "reentrancy".data), (severityKey, .str "high".data),
   (functionNameKey, .str "withdraw".data),
   (briefReasonKey, .str "external call before state update".data)]

/-- Parsed mapping of `detOneFinding`. -/
def detOneDfs : List (List Char × JVal) :=
  [(vulnerabilitiesKey, .arr [.obj detOneFields]), (summaryKey, .str "risky".data),
   ("total_issues".data, .num 1)]

/-- Sentinel mapping the parser produces for `explUnparseable`. -/
def explSentinelFields : List (List Char × JVal) :=
  [(errorKey, .str parseFailText), (rawKey, .str explUnparseable)]

/-- A fetched optional binding that is not JSON null (either absent or a
non-null value). -/
def notNullBinding : Option JVal → Bool
  | some .null => false
  | _ => true

/-! ## Characterization lemmas -/

theorem pyGetD_of_strOrAbsent {fs : List (List Char × JVal)} {k d : List Char}
    (h : isStrOrAbsent (pyLookup fs k) = true) :
    pyGetD fs k (.str d) = .str (readStrD fs k d) := by
  unfold pyGetD readStrD
  cases hl : pyLookup fs k with
  | none => rfl
  | some v => cases v <;> simp_all [isStrOrAbsent]

theorem pyLower_getD_str {fs : List (List Char × JVal)} {k d : List Char}
    (h : isStrOrAbsent (pyLookup fs k) = true) :
    pyLower (pyGetD fs k (.str d)) = .ok (lowerAscii (readStrD fs k d)) := by
  rw [pyGetD_of_strOrAbsent h]; rfl

theorem mkVuln_eq_ok {fields efs : List (List Char × JVal)}
    (h : normReady fields = true) :
    mkVuln fields (.obj efs) = .ok (mkVulnPure fields efs) := by
  simp only [normReady, Bool.and_eq_true] at h
  obtain ⟨⟨h1, h2⟩, h3⟩ := h
  unfold mkVuln
  rw [pyLower_getD_str h1, pyLower_getD_str h2, pyLower_getD_str h3]
  rfl

theorem processVulns_map_obj (explains : Nat → AIOutcome)
    (efsOf : Nat → List (List Char × JVal)) :
    ∀ (fl : List (List (List Char × JVal))) (i0 : Nat),
    (∀ fs ∈ fl, normReady fs = true) →
    (∀ k, k < fl.length → ∃ t, explains (i0 + k) = .resp t ∧
        parse_json_response t = .obj (efsOf (i0 + k))) →
    processVulns explains (fl.map .obj) i0 =
      ((fl.enumFrom i0).map (fun p => mkVulnPure p.2 (efsOf p.1)), none) := by
  intro fl
  induction fl with
  | nil => intro i0 _ _; rfl
  | cons fs rest ih =>
    intro i0 hnr hex
    obtain ⟨t, het, hpt⟩ := hex 0 (by simp)
    rw [Nat.add_zero] at het hpt
    have hrec := ih (i0 + 1)
      (fun fs' h' => hnr fs' (List.mem_cons_of_mem _ h'))
      (fun k hk => by
        obtain ⟨t', h1, h2⟩ := hex (k + 1) (by simpa using Nat.succ_lt_succ hk)
        rw [show i0 + (k + 1) = i0 + 1 + k by omega] at h1 h2
        exact ⟨t', h1, h2⟩)
    simp only [List.map_cons, processVulns, het, hpt,
      mkVuln_eq_ok (hnr fs (List.mem_cons_self _ _)), hrec, List.enumFrom]

theorem sevOfVulnGHS_eq {v : JVal} (h : sevFieldWf v = true) :
    sevOfVulnGHS v = .ok (ghsSevOf v) := by
  cases v with
  | obj fs =>
    simp only [sevFieldWf] at h
    simpa [sevOfVulnGHS, ghsSevOf] using pyLower_getD_str h
  | null => simp [sevFieldWf] at h
  | bool b => simp [sevFieldWf] at h
  | num n => simp [sevFieldWf] at h
  | str s => simp [sevFieldWf] at h
  | arr xs => simp [sevFieldWf] at h

theorem findSevMatch_eq (target : List Char) :
    ∀ (vulns : List JVal), (∀ v ∈ vulns, sevFieldWf v = true) →
    findSevMatch target vulns = .ok (vulns.any (fun v => ghsSevOf v == target)) := by
  intro vulns
  induction vulns with
  | nil => intro _; rfl
  | cons v rest ih =>
    intro h
    simp only [findSevMatch, sevOfVulnGHS_eq (h v (List.mem_cons_self _ _)), List.any_cons]
    by_cases he : ghsSevOf v = target
    · simp [he]
    · simp [he, ih (fun v' h' => h v' (List.mem_cons_of_mem _ h'))]

theorem ghsLoop_eq {vulns : List JVal} (h : ∀ v ∈ vulns, sevFieldWf v = true) :
    ∀ labels, ghsLoop vulns labels = .ok (firstPresentSev vulns labels) := by
  intro labels
  induction labels with
  | nil => rfl
  | cons t more ih =>
    simp only [ghsLoop, findSevMatch_eq t vulns h, firstPresentSev]
    cases hb : vulns.any (fun v => ghsSevOf v == t) with
    | false => simp [ih]
    | true => simp

theorem get_highest_severity_eq {vulns : List JVal}
    (h : ∀ v ∈ vulns, sevFieldWf v = true) :
    get_highest_severity vulns = .ok (firstPresentSev vulns severity_order) := by
  unfold get_highest_severity
  by_cases he : vulns.isEmpty
  · rw [List.isEmpty_iff] at he
    subst he
    rfl
  · simp only [he, Bool.false_eq_true, if_false, ghsLoop_eq h]

theorem anyMapEq {α β : Type} (f : α → β) (p : β → Bool) (l : List α) :
    (l.map f).any p = l.any (fun a => p (f a)) := by
  induction l with
  | nil => rfl
  | cons a l ih => simp [List.any_cons, ih]

theorem anyEqFalseMem {α : Type} {l : List α} {p : α → Bool}
    (h : ¬ l.any p = true) : ∀ x ∈ l, p x = false := by
  simp only [List.any_eq_true, not_exists] at h
  intro x hx
  cases hpx : p x with
  | false => rfl
  | true => exact absurd ⟨hx, hpx⟩ (h x)

theorem ghsSpec_eq_firstPresent (vulns : List JVal) :
    ghsSpec (vulns.map ghsSevOf) = firstPresentSev vulns severity_order := by
  simp only [ghsSpec, severity_order, firstPresentSev, anyMapEq, ite_self]

theorem sevRank_le_four (s : List Char) : sevRank s ≤ 4 := by
  unfold sevRank
  split_ifs <;> omega

theorem sevRank_le_three {s : List Char} (h : s ≠ "critical".data) : sevRank s ≤ 3 := by
  unfold sevRank
  split_ifs with e1 e2 e3 <;> first | exact absurd e1 h | omega

theorem sevRank_le_two {s : List Char} (h1 : s ≠ "critical".data)
    (h2 : s ≠ "high".data) : sevRank s ≤ 2 := by
  unfold sevRank
  split_ifs with e1 e2 e3 <;>
    first | exact absurd e1 h1 | exact absurd e2 h2 | omega

theorem sevRank_le_one {s : List Char} (h1 : s ≠ "critical".data)
    (h2 : s ≠ "high".data) (h3 : s ≠ "medium".data) : sevRank s ≤ 1 := by
  unfold sevRank
  split_ifs with e1 e2 e3 <;>
    first | exact absurd e1 h1 | exact absurd e2 h2 | exact absurd e3 h3 | omega

theorem sevRank_eq_zero {s : List Char} (h1 : s ≠ "critical".data)
    (h2 : s ≠ "high".data) (h3 : s ≠ "medium".data) (h4 : s ≠ "low".data) :
    sevRank s = 0 := by
  unfold sevRank
  split_ifs with e1 e2 e3 e4 <;>
    first | exact absurd e1 h1 | exact absurd e2 h2 | exact absurd e3 h3
          | exact absurd e4 h4 | rfl

theorem firstPresentSev_mem (vulns : List JVal) :
    firstPresentSev vulns severity_order ∈ severity_order := by
  simp only [severity_order, firstPresentSev]
  split_ifs <;> simp

theorem firstPresentSev_rank_ub (vulns : List JVal) :
    ∀ v ∈ vulns, sevRank (ghsSevOf v) ≤ sevRank (firstPresentSev vulns severity_order) := by
  intro v hv
  simp only [severity_order, firstPresentSev]
  split_ifs with h1 h2 h3 h4 h5
  · exact le_trans (sevRank_le_four _) (by decide)
  · have n1 := anyEqFalseMem h1 v hv
    rw [beq_eq_false_iff_ne] at n1
    exact le_trans (sevRank_le_three n1) (by decide)
  · have n1 := anyEqFalseMem h1 v hv
    have n2 := anyEqFalseMem h2 v hv
    rw [beq_eq_false_iff_ne] at n1 n2
    exact le_trans (sevRank_le_two n1 n2) (by decide)
  · have n1 := anyEqFalseMem h1 v hv
    have n2 := anyEqFalseMem h2 v hv
    have n3 := anyEqFalseMem h3 v hv
    rw [beq_eq_false_iff_ne] at n1 n2 n3
    exact le_trans (sevRank_le_one n1 n2 n3) (by decide)
  · have n1 := anyEqFalseMem h1 v hv
    have n2 := anyEqFalseMem h2 v hv
    have n3 := anyEqFalseMem h3 v hv
    have n4 := anyEqFalseMem h4 v hv
    rw [beq_eq_false_iff_ne] at n1 n2 n3 n4
    have h0 := sevRank_eq_zero n1 n2 n3 n4
    omega
  · have n1 := anyEqFalseMem h1 v hv
    have n2 := anyEqFalseMem h2 v hv
    have n3 := anyEqFalseMem h3 v hv
    have n4 := anyEqFalseMem h4 v hv
    rw [beq_eq_false_iff_ne] at n1 n2 n3 n4
    have h0 := sevRank_eq_zero n1 n2 n3 n4
    omega

theorem firstPresentSev_attained (vulns : List JVal) :
    firstPresentSev vulns severity_order ∈ vulns.map ghsSevOf ∨
    firstPresentSev vulns severity_order = "info".data := by
  simp only [severity_order, firstPresentSev]
  split_ifs with h1 h2 h3 h4
  · left
    obtain ⟨v, hv, hb⟩ := List.any_eq_true.mp h1
    rw [beq_iff_eq] at hb
    exact hb ▸ List.mem_map_of_mem _ hv
  · left
    obtain ⟨v, hv, hb⟩ := List.any_eq_true.mp h2
    rw [beq_iff_eq] at hb
    exact hb ▸ List.mem_map_of_mem _ hv
  · left
    obtain ⟨v, hv, hb⟩ := List.any_eq_true.mp h3
    rw [beq_iff_eq] at hb
    exact hb ▸ List.mem_map_of_mem _ hv
  · left
    obtain ⟨v, hv, hb⟩ := List.any_eq_true.mp h4
    rw [beq_iff_eq] at hb
    exact hb ▸ List.mem_map_of_mem _ hv
  · right; rfl
  · right; rfl

theorem scoreLoop_eq :
    ∀ (vulns : List JVal), (∀ v ∈ vulns, sevFieldWf v = true) →
    scoreLoop vulns = .ok (sumPoints vulns) := by
  intro vulns
  induction vulns with
  | nil => intro _; rfl
  | cons v rest ih =>
    intro h
    have hv := h v (List.mem_cons_self _ _)
    cases v with
    | obj fs =>
      simp only [sevFieldWf] at hv
      simp only [scoreLoop, pyLower_getD_str hv,
        ih (fun v' h' => h v' (List.mem_cons_of_mem _ h'))]
      simp [sumPoints, riskPointsOf, scoreSevOf]
    | null => simp [sevFieldWf] at hv
    | bool b => simp [sevFieldWf] at hv
    | num n => simp [sevFieldWf] at hv
    | str s => simp [sevFieldWf] at hv
    | arr xs => simp [sevFieldWf] at hv

theorem calculate_risk_score_eq {vulns : List JVal}
    (h : ∀ v ∈ vulns, sevFieldWf v = true) :
    calculate_risk_score vulns = .ok (min 100 (sumPoints vulns)) := by
  unfold calculate_risk_score
  by_cases he : vulns.isEmpty
  · rw [List.isEmpty_iff] at he
    subst he
    simp [sumPoints]
  · simp only [he, Bool.false_eq_true, if_false, scoreLoop_eq vulns h]

theorem analyze_contract_success
    (run0 : RunState) (code dText : List Char) (dfs : List (List Char × JVal))
    (fl : List (List (List Char × JVal)))
    (explains : Nat → AIOutcome) (efsOf : Nat → List (List Char × JVal))
    (hdr : parse_json_response dText = .obj dfs)
    (hnoerr : pyHasKey dfs errorKey = false)
    (hvulns : pyGetD dfs vulnerabilitiesKey (.arr []) = .arr (fl.map .obj))
    (hnr : ∀ fs ∈ fl, normReady fs = true)
    (hex : ∀ k, k < fl.length → ∃ t, explains k = .resp t ∧
        parse_json_response t = .obj (efsOf k)) :
    analyze_contract run0 code (.resp dText) explains =
      ⟨{ status := .completed,
         error_message := run0.error_message,
         overall_risk := some (firstPresentSev (fl.map JVal.obj) severity_order),
         risk_score := some (min 100 (sumPoints (fl.map JVal.obj))),
         summary := some (pyGetD dfs summaryKey (.str (defaultSummary fl.length))),
         total_lines := some (splitCount '\n' code),
         functions_analyzed := some (countSubstr "function ".data code) },
       (fl.enumFrom 0).map (fun p => mkVulnPure p.2 (efsOf p.1)),
       none⟩ := by
  have hwf : ∀ v ∈ fl.map JVal.obj, sevFieldWf v = true := by
    intro v hv
    obtain ⟨fs, hfs, rfl⟩ := List.mem_map.mp hv
    have hn := hnr fs hfs
    simp only [normReady, Bool.and_eq_true] at hn
    simpa [sevFieldWf] using hn.1.2
  have hpv := processVulns_map_obj explains efsOf fl 0 hnr
    (fun k hk => by simpa using hex k hk)
  simp only [analyze_contract, tryBody, hdr, pyContains, hnoerr, pyDictGetD,
    hvulns, iterVulns, hpv, get_highest_severity_eq hwf,
    calculate_risk_score_eq hwf, List.length_map]

/-! ## Lemmas on the stripping preamble (code-fence tolerance) -/

theorem isPrefixOf_append_self (l t : List Char) : l.isPrefixOf (l ++ t) = true := by
  induction l with
  | nil => simp [List.isPrefixOf]
  | cons c cs ih => simp [List.isPrefixOf, ih]

theorem dropWhile_cons_false {p : Char → Bool} {c : Char} {t : List Char}
    (h : p c = false) : (c :: t).dropWhile p = c :: t := by
  simp [List.dropWhile_cons, h]

theorem dropWhile_eq_self_of_parts {p : Char → Bool} {s : List Char}
    (h : dropTrailing p (s.dropWhile p) = s) : s.dropWhile p = s := by
  have hsuf : s.dropWhile p <:+ s := List.dropWhile_suffix p
  have hlen : (s.dropWhile p).length = s.length := by
    have h1 : (s.dropWhile p).length ≤ s.length := hsuf.sublist.length_le
    have h2 : s.length ≤ (s.dropWhile p).length := by
      conv_lhs => rw [← h]
      unfold dropTrailing
      calc ((s.dropWhile p).reverse.dropWhile p).reverse.length
          = ((s.dropWhile p).reverse.dropWhile p).length := List.length_reverse _
        _ ≤ (s.dropWhile p).reverse.length := (List.dropWhile_suffix p).sublist.length_le
        _ = (s.dropWhile p).length := List.length_reverse _
    omega
  exact hsuf.eq_of_length hlen

theorem pyStrip_self_parts {s : List Char} (h : pyStrip s = s) :
    s.dropWhile isPySpace = s ∧ dropTrailing isPySpace s = s := by
  unfold pyStrip at h
  have hd : s.dropWhile isPySpace = s := dropWhile_eq_self_of_parts h
  rw [hd] at h
  exact ⟨hd, h⟩

theorem dropTrailing_rev {p : Char → Bool} {s : List Char}
    (h : dropTrailing p s = s) : s.reverse.dropWhile p = s.reverse := by
  unfold dropTrailing at h
  have h2 := congrArg List.reverse h
  rwa [List.reverse_reverse] at h2

theorem head_false_of_dropWhile_self {p : Char → Bool} {c : Char} {t : List Char}
    (h : (c :: t).dropWhile p = c :: t) : p c = false := by
  cases hp : p c with
  | false => rfl
  | true =>
    rw [List.dropWhile_cons, hp] at h
    simp only [if_true] at h
    have := (List.dropWhile_suffix p (l := t)).sublist.length_le
    rw [h] at this
    simp at this

/-- Stripping the preamble of the parser on a fenced document reduces to
the stripped inner document. -/
theorem stripFences_wrapped {J : List Char} (hJne : J ≠ [])
    (hd : J.dropWhile isPySpace = J) (hdt : dropTrailing isPySpace J = J) :
    stripFences (fenceJson ++ '\n' :: (J ++ '\n' :: fenceBare)) = J := by
  obtain ⟨c, t, rfl⟩ : ∃ c t, J = c :: t := by
    cases J with
    | nil => exact absurd rfl hJne
    | cons c t => exact ⟨c, t, rfl⟩
  have hc : isPySpace c = false := head_false_of_dropWhile_self hd
  have hrev : (c :: t).reverse.dropWhile isPySpace = (c :: t).reverse :=
    dropTrailing_rev hdt
  have hb : fenceBare.reverse = Char.ofNat 96 :: "``".data := by decide
  have hstrip1 : pyStrip (fenceJson ++ '\n' :: ((c :: t) ++ '\n' :: fenceBare)) =
      fenceJson ++ '\n' :: ((c :: t) ++ '\n' :: fenceBare) := by
    unfold pyStrip
    have h1 : (fenceJson ++ '\n' :: ((c :: t) ++ '\n' :: fenceBare)).dropWhile isPySpace =
        fenceJson ++ '\n' :: ((c :: t) ++ '\n' :: fenceBare) := by
      have := dropWhile_cons_false (p := isPySpace)
        (c := Char.ofNat 96)
        (t := "``json".data ++ '\n' :: ((c :: t) ++ '\n' :: fenceBare)) (by decide)
      exact this
    rw [h1]
    unfold dropTrailing
    rw [show fenceJson ++ '\n' :: ((c :: t) ++ '\n' :: fenceBare) =
        (fenceJson ++ '\n' :: ((c :: t) ++ ['\n'])) ++ fenceBare from by simp]
    rw [List.reverse_append, hb, List.cons_append, dropWhile_cons_false (by decide),
      ← List.cons_append, ← hb, ← List.reverse_append, List.reverse_reverse]
  have hs1 : dropFenceJson (fenceJson ++ '\n' :: ((c :: t) ++ '\n' :: fenceBare)) =
      '\n' :: ((c :: t) ++ '\n' :: fenceBare) := by
    unfold dropFenceJson
    rw [isPrefixOf_append_self]
    simp only [if_true]
    rw [show (7 : Nat) = fenceJson.length from rfl, List.drop_left]
  have hs2 : dropFenceBare ('\n' :: ((c :: t) ++ '\n' :: fenceBare)) =
      '\n' :: ((c :: t) ++ '\n' :: fenceBare) := by
    unfold dropFenceBare
    rw [show fenceBare.isPrefixOf ('\n' :: ((c :: t) ++ '\n' :: fenceBare)) = false from rfl]
    simp
  have hs3 : dropFenceEnd ('\n' :: ((c :: t) ++ '\n' :: fenceBare)) =
      '\n' :: ((c :: t) ++ ['\n']) := by
    unfold dropFenceEnd
    rw [show ('\n' :: ((c :: t) ++ '\n' :: fenceBare)) =
        ('\n' :: ((c :: t) ++ ['\n'])) ++ fenceBare from by simp]
    have hends : listEndsWith (('\n' :: ((c :: t) ++ ['\n'])) ++ fenceBare) fenceBare = true := by
      unfold listEndsWith
      rw [List.reverse_append]
      exact isPrefixOf_append_self _ _
    rw [hends]
    simp only [if_true]
    rw [show (('\n' :: ((c :: t) ++ ['\n'])) ++ fenceBare).length - 3 =
        ('\n' :: ((c :: t) ++ ['\n'])).length from by simp [fenceBare], List.take_left]
  have hs4 : pyStrip ('\n' :: ((c :: t) ++ ['\n'])) = c :: t := by
    unfold pyStrip
    rw [List.dropWhile_cons]
    rw [show isPySpace '\n' = true from by decide]
    simp only [if_true]
    rw [List.cons_append, dropWhile_cons_false hc]
    unfold dropTrailing
    rw [show (c :: (t ++ ['\n'])).reverse = '\n' :: (c :: t).reverse from by simp]
    rw [List.dropWhile_cons]
    rw [show isPySpace '\n' = true from by decide]
    simp only [if_true]
    rw [hrev, List.reverse_reverse]
  unfold stripFences
  rw [hstrip1, hs1, hs2, hs3, hs4]

/-- Stripping the preamble on an already-stripped, unfenced document is the
identity. -/
theorem stripFences_unfenced {J : List Char} (hs : pyStrip J = J)
    (h1 : fenceBare.isPrefixOf J = false)
    (h2 : listEndsWith J fenceBare = false) :
    stripFences J = J := by
  have h1' : fenceJson.isPrefixOf J = false := by
    cases hj : fenceJson.isPrefixOf J with
    | false => rfl
    | true =>
      have hpre : fenceJson <+: J := List.isPrefixOf_iff_prefix.mp hj
      have hbare : fenceBare <+: fenceJson := ⟨"json".data, by decide⟩
      have hcontra : fenceBare.isPrefixOf J = true :=
        List.isPrefixOf_iff_prefix.mpr (hbare.trans hpre)
      rw [hcontra] at h1
      exact absurd h1 (by decide)
  unfold stripFences dropFenceJson dropFenceBare dropFenceEnd
  rw [hs, h1']
  simp only [Bool.false_eq_true, if_false]
  rw [h1]
  simp only [Bool.false_eq_true, if_false]
  rw [h2]
  simp only [Bool.false_eq_true, if_false]
  exact hs

/-! ## Claim theorems -/

/-- C1: the claim states that on a detection-parse failure the orchestrator
transitions the run to `failed` and records an error message. The code, at
the failing input below, instead leaves the committed status at
`processing` with no error message, because the classified `AnalysisError`
raised at the sentinel check is re-raised by the `except AnalysisError`
handler without the failed-state update. The claim's remaining parts hold:
zero findings are persisted and the raised failure carries the
detection-parse message with the truncated raw text. -/
theorem detection_parse_failure_run_outcome :
    (analyze_contract freshRun sampleCode (.resp garbageDetection)
        (fun _ => .resp [])).run.status = .processing ∧
    (analyze_contract freshRun sampleCode (.resp garbageDetection)
        (fun _ => .resp [])).run.error_message = none ∧
    (analyze_contract freshRun sampleCode (.resp garbageDetection)
        (fun _ => .resp [])).persisted = [] ∧
    (analyze_contract freshRun sampleCode (.resp garbageDetection)
        (fun _ => .resp [])).raised =
      some (detectionFailMsg, .str garbageDetection) :=
  ⟨rfl, rfl, rfl, rfl⟩

/-- C3: the claim states the run's status is terminal (`completed` or
`failed`) whenever `analyze_contract` returns control. At the failing input
below the orchestrator raises (control returns to the caller) while the
committed status is still `processing` — a non-terminal state — refuting
the terminality half of the claim; the forward-only half is not at issue
on this path (`pending → processing` was the only transition taken). -/
theorem detection_parse_failure_nonterminal_status :
    (∃ m d, (analyze_contract freshRun sampleCode (.resp garbageDetection2)
        (fun _ => .resp [])).raised = some (m, d)) ∧
    (analyze_contract freshRun sampleCode (.resp garbageDetection2)
        (fun _ => .resp [])).run.status = .processing ∧
    AnalysisStatus.processing ≠ AnalysisStatus.completed ∧
    AnalysisStatus.processing ≠ AnalysisStatus.failed :=
  ⟨⟨detectionFailMsg, .str garbageDetection2, rfl⟩, rfl, by decide, by decide⟩

theorem extract_fields_ne_nil {r : List Char} {fields : List (List Char × JVal)}
    (h : extract_fields_manually r = some fields) : fields ≠ [] := by
  unfold extract_fields_manually at h
  split at h
  · exact Option.noConfusion h
  · next he =>
    cases h
    simp only [List.isEmpty_iff] at he
    exact he

/-- C4 (amended): the response parser is total and follows the ordered
fallback strategies; every input yields either the value of the first
successful JSON parse (direct, after cleaning, or of the brace slice), a
mapping of manually extracted fields, or the sentinel failure mapping whose
`raw` field holds the first 200 characters of the stripped text (so is at
most 200 characters long). The parse result is a mapping whenever the
parsed document was a JSON object, but — as the counterexample shows — a
non-object JSON document is returned as is, which is why the claim's
"always a mapping or the sentinel" needed amending. -/
theorem parse_json_response_shape (s : List Char) :
    (∃ v, jsonParse (stripFences s) = some v ∧ parse_json_response s = v) ∨
    (∃ v, jsonParse (clean_json_string (stripFences s)) = some v ∧
        parse_json_response s = v) ∨
    (∃ sub v, braceSlice (clean_json_string (stripFences s)) = some sub ∧
        jsonParse sub = some v ∧ parse_json_response s = v) ∨
    (∃ fields, fields ≠ [] ∧ extract_fields_manually (stripFences s) = some fields ∧
        parse_json_response s = .obj fields) ∨
    (parse_json_response s = sentinelOf (stripFences s) ∧
        ((stripFences s).take 200).length ≤ 200) := by
  cases h1 : jsonParse (stripFences s) with
  | some v => exact Or.inl ⟨v, rfl, by simp [parse_json_response, parseCore, h1]⟩
  | none =>
    cases h2 : jsonParse (clean_json_string (stripFences s)) with
    | some v =>
      exact Or.inr (Or.inl ⟨v, rfl, by simp [parse_json_response, parseCore, h1, h2]⟩)
    | none =>
      cases h3 : braceSlice (clean_json_string (stripFences s)) with
      | some sub =>
        cases h4 : jsonParse sub with
        | some v =>
          exact Or.inr (Or.inr (Or.inl ⟨sub, v, rfl, h4,
            by simp [parse_json_response, parseCore, h1, h2, h3, h4]⟩))
        | none =>
          cases h5 : extract_fields_manually (stripFences s) with
          | some fields =>
            exact Or.inr (Or.inr (Or.inr (Or.inl
              ⟨fields, extract_fields_ne_nil h5, rfl,
               by simp [parse_json_response, parseCore, manualFallback, h1, h2, h3, h4, h5]⟩)))
          | none =>
            refine Or.inr (Or.inr (Or.inr (Or.inr
              ⟨by simp [parse_json_response, parseCore, manualFallback, h1, h2, h3, h4, h5], ?_⟩)))
            simp [List.length_take]
      | none =>
        cases h5 : extract_fields_manually (stripFences s) with
        | some fields =>
          exact Or.inr (Or.inr (Or.inr (Or.inl
            ⟨fields, extract_fields_ne_nil h5, rfl,
             by simp [parse_json_response, parseCore, manualFallback, h1, h2, h3, h5]⟩)))
        | none =>
          refine Or.inr (Or.inr (Or.inr (Or.inr
            ⟨by simp [parse_json_response, parseCore, manualFallback, h1, h2, h3, h5], ?_⟩)))
          simp [List.length_take]

/-- C4 counterexample: the claim says the parser always returns a
structured mapping or the sentinel, but on the input `[1, 2]` it returns
the parsed JSON array, which is neither. -/
theorem parse_json_response_nonmapping :
    parse_json_response "[1, 2]".data = .arr [.num 1, .num 2] ∧
    (∀ fields, parse_json_response "[1, 2]".data ≠ JVal.obj fields) := by
  refine ⟨rfl, fun fields h => ?_⟩
  rw [show parse_json_response "[1, 2]".data = .arr [.num 1, .num 2] from rfl] at h
  exact JVal.noConfusion h

theorem sumPoints_append (l : List JVal) (v : JVal) :
    sumPoints (l ++ [v]) = sumPoints l + riskPointsOf v := by
  simp [sumPoints]

/-- C6: the risk score is the sum over the findings of the fixed
per-severity points (critical 40, high 25, medium 15, low 5, info 1, and
10 for any severity outside the closed set), capped at 100; it is 0 for
the empty list, never exceeds 100, and appending a finding never lowers
it. The well-formedness hypotheses say each finding is a mapping whose
severity, when present, is a string — the shape under which the Python
loop does not raise. -/
theorem risk_score_formula (vulns : List JVal) (v : JVal)
    (h : ∀ x ∈ vulns, sevFieldWf x = true) (hv : sevFieldWf v = true) :
    calculate_risk_score [] = .ok 0 ∧
    calculate_risk_score vulns = .ok (min 100 (sumPoints vulns)) ∧
    min 100 (sumPoints vulns) ≤ 100 ∧
    calculate_risk_score (vulns ++ [v]) =
      .ok (min 100 (sumPoints vulns + riskPointsOf v)) ∧
    min 100 (sumPoints vulns) ≤ min 100 (sumPoints vulns + riskPointsOf v) ∧
    severityPoints "critical".data = 40 ∧ severityPoints "high".data = 25 ∧
    severityPoints "medium".data = 15 ∧ severityPoints "low".data = 5 ∧
    severityPoints "info".data = 1 ∧
    (∀ s, severity_order.contains s = false → severityPoints s = 10) := by
  have happ : ∀ x ∈ vulns ++ [v], sevFieldWf x = true := by
    intro x hx
    rcases List.mem_append.mp hx with hx | hx
    · exact h x hx
    · rw [List.mem_singleton.mp hx]; exact hv
  refine ⟨rfl, calculate_risk_score_eq h, Nat.min_le_left _ _, ?_, ?_,
    by decide, by decide, by decide, by decide, by decide, ?_⟩
  · rw [calculate_risk_score_eq happ, sumPoints_append]
  · exact min_le_min (Nat.le_refl 100) (Nat.le_add_right _ _)
  · intro s hns
    unfold severityPoints
    split_ifs with e1 e2 e3 e4 e5
    · rw [e1] at hns; exact absurd hns (by decide)
    · rw [e2] at hns; exact absurd hns (by decide)
    · rw [e3] at hns; exact absurd hns (by decide)
    · rw [e4] at hns; exact absurd hns (by decide)
    · rw [e5] at hns; exact absurd hns (by decide)
    · rfl

/-- Witness for the risk-score theorem at a concrete two-finding list:
one high finding and one finding with no severity key (read as medium). -/
theorem risk_score_formula_witness :
    calculate_risk_score
      [JVal.obj [(severityKey, .str "high".data)], JVal.obj []] = .ok 40 := by
  have h := (risk_score_formula
    [JVal.obj [(severityKey, .str "high".data)], JVal.obj []]
    (.obj []) (by decide) (by decide)).2.1
  rw [h]
  rfl

/-- C7: `_get_highest_severity` returns a label of the closed vocabulary;
on the empty list it returns `info`; the returned label has the highest
precedence among the severities the findings report (each reported
severity's rank is bounded by the result's rank, and the result is either
itself reported or the `info` default); and on the spec's example —
severities low, critical, medium — it returns `critical`. -/
theorem highest_severity_precedence (vulns : List JVal)
    (h : ∀ v ∈ vulns, sevFieldWf v = true) :
    (∃ r, get_highest_severity vulns = .ok r ∧
      r ∈ severity_order ∧
      (vulns = [] → r = "info".data) ∧
      (∀ v ∈ vulns, sevRank (ghsSevOf v) ≤ sevRank r) ∧
      (r ∈ vulns.map ghsSevOf ∨ r = "info".data)) ∧
    get_highest_severity exampleSevFindings = .ok "critical".data := by
  refine ⟨⟨firstPresentSev vulns severity_order, get_highest_severity_eq h,
    firstPresentSev_mem vulns, ?_, firstPresentSev_rank_ub vulns,
    firstPresentSev_attained vulns⟩, rfl⟩
  intro he
  subst he
  rfl

/-- Witness for the highest-severity theorem at the example list. -/
theorem highest_severity_precedence_witness :
    (∀ v ∈ exampleSevFindings, sevFieldWf v = true) ∧
    ∃ r, get_highest_severity exampleSevFindings = .ok r ∧ r ∈ severity_order :=
  ⟨by decide,
   ((highest_severity_precedence exampleSevFindings (by decide)).1).elim
     (fun r hr => ⟨r, hr.1, hr.2.1⟩)⟩

/-- C8: parsing a valid JSON object document wrapped in a markdown code
fence (a tagged fence marker plus newline before it, a newline plus bare
marker after it) yields the same mapping as parsing the unfenced document.
The hypotheses say the document is stripped of surrounding whitespace,
does not itself look like a fence at either end, and parses as a JSON
object — all true of any valid JSON object text. -/
theorem fenced_parse_agrees (J : List Char) (fs : List (List Char × JVal))
    (hs : pyStrip J = J)
    (h1 : fenceBare.isPrefixOf J = false)
    (h2 : listEndsWith J fenceBare = false)
    (hJ : jsonParse J = some (.obj fs)) :
    parse_json_response (fenceJson ++ '\n' :: (J ++ '\n' :: fenceBare)) =
      parse_json_response J ∧
    parse_json_response J = .obj fs := by
  have hJne : J ≠ [] := by
    rintro rfl
    exact Option.noConfusion (show (none : Option JVal) = some (JVal.obj fs) from hJ)
  obtain ⟨hd, hdt⟩ := pyStrip_self_parts hs
  have hwrap := stripFences_wrapped hJne hd hdt
  have hunf := stripFences_unfenced hs h1 h2
  constructor
  · unfold parse_json_response
    rw [hwrap, hunf]
  · unfold parse_json_response
    rw [hunf]
    unfold parseCore
    rw [hJ]

/-- Witness for the code-fence theorem on the spec's example document. -/
theorem fenced_parse_agrees_witness :
    parse_json_response
        "```json\n\x7b\"vulnerabilities\": [], \"summary\": \"ok\", \"total_issues\": 0\x7d\n```".data =
      parse_json_response
        "\x7b\"vulnerabilities\": [], \"summary\": \"ok\", \"total_issues\": 0\x7d".data :=
  (fenced_parse_agrees
    "\x7b\"vulnerabilities\": [], \"summary\": \"ok\", \"total_issues\": 0\x7d".data
    [(vulnerabilitiesKey, .arr []), (summaryKey, .str "ok".data),
     ("total_issues".data, .num 0)]
    rfl (by decide) (by decide) rfl).1

theorem analyze_code_contract_stable (store : List ContractRec) (n1 n2 code : List Char) :
    analyze_code_contract (analyze_code_contract store n1 code).2 n2 code =
      ((analyze_code_contract store n1 code).1, (analyze_code_contract store n1 code).2) := by
  unfold analyze_code_contract findByHash
  cases hf : store.find? (fun c => c.code_hash == get_code_hash code) with
  | some c => simp [hf]
  | none =>
    simp only [hf]
    rw [List.find?_append, hf]
    simp [List.find?]

/-- C9: the content hash is a deterministic pure function of the code text
(identical texts hash identically), and submitting the same code text a
second time resolves to the contract record stored by the first submission
instead of inserting a duplicate — the store is unchanged and the same
record is returned. -/
theorem code_hash_dedup (c1 c2 : List Char) (store : List ContractRec)
    (n1 n2 : List Char) (h : c1 = c2) :
    get_code_hash c1 = get_code_hash c2 ∧
    (analyze_code_contract (analyze_code_contract store n1 c1).2 n2 c2).1 =
      (analyze_code_contract store n1 c1).1 ∧
    (analyze_code_contract (analyze_code_contract store n1 c1).2 n2 c2).2 =
      (analyze_code_contract store n1 c1).2 := by
  subst h
  have hst := analyze_code_contract_stable store n1 n2 c1
  exact ⟨rfl, by rw [hst], by rw [hst]⟩

/-- Witness for the dedup theorem: the same snippet submitted twice into an
empty store. -/
theorem code_hash_dedup_witness :
    ("contract A \x7b \x7d".data = "contract A \x7b \x7d".data) ∧
    get_code_hash "contract A \x7b \x7d".data = get_code_hash "contract A \x7b \x7d".data ∧
    (analyze_code_contract
        (analyze_code_contract [] "a".data "contract A \x7b \x7d".data).2
        "b".data "contract A \x7b \x7d".data).2 =
      (analyze_code_contract [] "a".data "contract A \x7b \x7d".data).2 :=
  ⟨rfl,
   (code_hash_dedup "contract A \x7b \x7d".data "contract A \x7b \x7d".data []
     "a".data "b".data rfl).1,
   (code_hash_dedup "contract A \x7b \x7d".data "contract A \x7b \x7d".data []
     "a".data "b".data rfl).2.2⟩

/-- C2 counterexample: the claim says a model-client timeout raised as an
AI-service error during a finding's explanation call is non-fatal and the
finding is still persisted. In the code the error reaches the generic
handler: the run transitions to `failed`, the error message is recorded,
and the finding is not persisted. -/
theorem explanation_service_error_fatal :
    (analyze_contract freshRun sampleCode (.resp detOneFinding)
        (fun _ => .fail "AI request timed out. The model may be loading.".data)).run.status =
      .failed ∧
    (analyze_contract freshRun sampleCode (.resp detOneFinding)
        (fun _ => .fail "AI request timed out. The model may be loading.".data)).persisted = [] ∧
    (analyze_contract freshRun sampleCode (.resp detOneFinding)
        (fun _ => .fail "AI request timed out. The model may be loading.".data)).run.error_message =
      some "AI request timed out. The model may be loading.".data ∧
    AnalysisStatus.failed ≠ AnalysisStatus.completed :=
  ⟨rfl, rfl, rfl, by decide⟩

/-- C2 (amended): a per-finding explanation failure that yields response
text the parser cannot read (the sentinel mapping) is non-fatal — the run
completes without raising, every finding is persisted, and a finding whose
explanation was the sentinel keeps its detection-derived normalized
category, severity and confidence, falls back to the detection
`brief_reason` (then the empty string) for its description, and has no
impact, recommendation or corrected code; whereas a raised AI-service
error aborts the run (see the counterexample). -/
theorem explanation_sentinel_nonfatal
    (run0 : RunState) (code dText : List Char) (dfs : List (List Char × JVal))
    (fl : List (List (List Char × JVal)))
    (explains : Nat → AIOutcome) (efsOf : Nat → List (List Char × JVal))
    (hdr : parse_json_response dText = .obj dfs)
    (hnoerr : pyHasKey dfs errorKey = false)
    (hvulns : pyGetD dfs vulnerabilitiesKey (.arr []) = .arr (fl.map .obj))
    (hnr : ∀ fs ∈ fl, normReady fs = true)
    (hex : ∀ k, k < fl.length → ∃ t, explains k = .resp t ∧
        parse_json_response t = .obj (efsOf k)) :
    (analyze_contract run0 code (.resp dText) explains).raised = none ∧
    (analyze_contract run0 code (.resp dText) explains).run.status = .completed ∧
    (analyze_contract run0 code (.resp dText) explains).persisted =
      (fl.enumFrom 0).map (fun p => mkVulnPure p.2 (efsOf p.1)) ∧
    ∀ p ∈ fl.enumFrom 0, ∀ raw,
      efsOf p.1 = [(errorKey, .str parseFailText), (rawKey, .str raw)] →
        (mkVulnPure p.2 (efsOf p.1)).vtype = normType p.2 ∧
        (mkVulnPure p.2 (efsOf p.1)).severity = normSev p.2 ∧
        (mkVulnPure p.2 (efsOf p.1)).confidence = normConf p.2 ∧
        (mkVulnPure p.2 (efsOf p.1)).description = pyGetD p.2 briefReasonKey (.str []) ∧
        (mkVulnPure p.2 (efsOf p.1)).impact = JVal.null ∧
        (mkVulnPure p.2 (efsOf p.1)).recommendation = JVal.null ∧
        (mkVulnPure p.2 (efsOf p.1)).fixed_code = JVal.null := by
  rw [analyze_contract_success run0 code dText dfs fl explains efsOf hdr hnoerr hvulns hnr hex]
  refine ⟨rfl, rfl, rfl, ?_⟩
  intro p hp raw hef
  rw [hef]
  have e1 : (rawKey == descriptionKey) = false := by decide
  have e2 : (errorKey == descriptionKey) = false := by decide
  have e3 : (rawKey == impactKey) = false := by decide
  have e4 : (errorKey == impactKey) = false := by decide
  have e5 : (rawKey == recommendationKey) = false := by decide
  have e6 : (errorKey == recommendationKey) = false := by decide
  have e7 : (rawKey == fixedCodeKey) = false := by decide
  have e8 : (errorKey == fixedCodeKey) = false := by decide
  refine ⟨rfl, rfl, rfl, ?_, ?_, ?_, ?_⟩ <;>
    simp [mkVulnPure, pyGetD, pyLookup, List.find?, e1, e2, e3, e4, e5, e6, e7, e8]

/-- Witness for the non-fatal sentinel theorem: one detected finding whose
explanation response is unparseable; the run still completes without
raising. -/
theorem explanation_sentinel_nonfatal_witness :
    (analyze_contract freshRun sampleCode (.resp detOneFinding)
        (fun _ => .resp explUnparseable)).raised = none ∧
    (analyze_contract freshRun sampleCode (.resp detOneFinding)
        (fun _ => .resp explUnparseable)).run.status = .completed :=
  ⟨(explanation_sentinel_nonfatal freshRun sampleCode detOneFinding detOneDfs
      [detOneFields] (fun _ => .resp explUnparseable) (fun _ => explSentinelFields)
      rfl (by decide) rfl (by decide)
      (fun _ _ => ⟨explUnparseable, rfl, rfl⟩)).1,
   (explanation_sentinel_nonfatal freshRun sampleCode detOneFinding detOneDfs
      [detOneFields] (fun _ => .resp explUnparseable) (fun _ => explSentinelFields)
      rfl (by decide) rfl (by decide)
      (fun _ _ => ⟨explUnparseable, rfl, rfl⟩)).2.1⟩

/-- C5 counterexample: a run whose single finding reports severity `bogus`
completes with overall risk `info` (aggregation over the pre-normalization
data skips the unrecognized label), while the persisted finding's severity
is the normalizer's default `medium` — the recorded overall risk does not
agree with the severities of the persisted findings, refuting the claim's
agreement requirement. -/
theorem overall_risk_disagrees_with_persisted :
    (analyze_contract freshRun sampleCode (.resp detBogusSeverity)
        (fun _ => .resp "\x7b\x7d".data)).run.status = .completed ∧
    (analyze_contract freshRun sampleCode (.resp detBogusSeverity)
        (fun _ => .resp "\x7b\x7d".data)).run.overall_risk = some "info".data ∧
    ((analyze_contract freshRun sampleCode (.resp detBogusSeverity)
        (fun _ => .resp "\x7b\x7d".data)).persisted.map (fun f => f.severity)) =
      ["medium".data] ∧
    "info".data ≠ "medium".data :=
  ⟨rfl, rfl, rfl, by decide⟩

/-- C5 (amended): on a completed run the recorded overall risk is one of
the five severity labels and is the highest-precedence severity among the
pre-normalization detection findings (the `info` default when none is
recognized or no findings exist): every reported severity's rank is
bounded by it and it is itself reported or `info`. It agrees with the
persisted findings' severities whenever every finding's reported severity
is one of the five labels; with an unrecognized or absent severity the two
sides may differ (see the counterexample), because the normalizer defaults
to `medium` while aggregation ignores the finding. -/
theorem overall_risk_aggregation
    (run0 : RunState) (code dText : List Char) (dfs : List (List Char × JVal))
    (fl : List (List (List Char × JVal)))
    (explains : Nat → AIOutcome) (efsOf : Nat → List (List Char × JVal))
    (hdr : parse_json_response dText = .obj dfs)
    (hnoerr : pyHasKey dfs errorKey = false)
    (hvulns : pyGetD dfs vulnerabilitiesKey (.arr []) = .arr (fl.map .obj))
    (hnr : ∀ fs ∈ fl, normReady fs = true)
    (hex : ∀ k, k < fl.length → ∃ t, explains k = .resp t ∧
        parse_json_response t = .obj (efsOf k)) :
    ∃ r, (analyze_contract run0 code (.resp dText) explains).run.overall_risk = some r ∧
      r ∈ severity_order ∧
      (∀ v ∈ fl.map JVal.obj, sevRank (ghsSevOf v) ≤ sevRank r) ∧
      (r ∈ (fl.map JVal.obj).map ghsSevOf ∨ r = "info".data) ∧
      ((∀ fs ∈ fl, severity_order.contains (ghsSevOf (JVal.obj fs)) = true) →
        (analyze_contract run0 code (.resp dText) explains).persisted.map
            (fun f => f.severity) = (fl.map JVal.obj).map ghsSevOf) := by
  rw [analyze_contract_success run0 code dText dfs fl explains efsOf hdr hnoerr hvulns hnr hex]
  refine ⟨firstPresentSev (fl.map JVal.obj) severity_order, rfl,
    firstPresentSev_mem _, firstPresentSev_rank_ub _, firstPresentSev_attained _, ?_⟩
  intro hrec
  rw [List.map_map, List.map_map]
  have hL : ((fun (f : VulnRec) => f.severity) ∘
      fun p : Nat × List (List Char × JVal) => mkVulnPure p.2 (efsOf p.1)) =
      fun p : Nat × List (List Char × JVal) => normSev p.2 := rfl
  rw [hL]
  have hL2 : (fl.enumFrom 0).map (fun p => normSev p.2) = fl.map normSev := by
    rw [show (fun p : Nat × List (List Char × JVal) => normSev p.2) =
        normSev ∘ Prod.snd from rfl, ← List.map_map, List.enumFrom_map_snd]
  rw [hL2]
  apply List.map_congr_left
  intro fs hfs
  have hn := hnr fs hfs
  simp only [normReady, Bool.and_eq_true] at hn
  have hr := hrec fs hfs
  show normSev fs = (ghsSevOf ∘ JVal.obj) fs
  cases hl : pyLookup fs severityKey with
  | none =>
    exfalso
    have hg : (ghsSevOf ∘ JVal.obj) fs = [] := by
      simp [ghsSevOf, readStrD, hl, lowerAscii]
    rw [show ghsSevOf (JVal.obj fs) = (ghsSevOf ∘ JVal.obj) fs from rfl, hg] at hr
    exact absurd hr (by decide)
  | some v =>
    have hsa := hn.1.2
    rw [hl] at hsa
    cases v with
    | str s =>
      have hg : (ghsSevOf ∘ JVal.obj) fs = lowerAscii s := by
        simp [ghsSevOf, readStrD, hl]
      rw [show ghsSevOf (JVal.obj fs) = (ghsSevOf ∘ JVal.obj) fs from rfl, hg] at hr
      rw [hg]
      simp only [normSev, readStrD, hl, hr, if_true]
    | null => simp [isStrOrAbsent] at hsa
    | bool b => simp [isStrOrAbsent] at hsa
    | num n => simp [isStrOrAbsent] at hsa
    | arr xs => simp [isStrOrAbsent] at hsa
    | obj o => simp [isStrOrAbsent] at hsa

/-- Witness for the overall-risk theorem at the one-finding scenario. -/
theorem overall_risk_aggregation_witness :
    ∃ r, (analyze_contract freshRun sampleCode (.resp detOneFinding)
        (fun _ => .resp explUnparseable)).run.overall_risk = some r ∧
      r ∈ severity_order :=
  (overall_risk_aggregation freshRun sampleCode detOneFinding detOneDfs [detOneFields]
    (fun _ => .resp explUnparseable) (fun _ => explSentinelFields)
    rfl (by decide) rfl (by decide) (fun _ _ => ⟨explUnparseable, rfl, rfl⟩)).elim
    (fun r hr => ⟨r, hr.1, hr.2.1⟩)

/-- C10 counterexample: when the explanation response binds `description`
to JSON null, Python `dict.get` returns the stored `None` instead of the
fallback, and the completed run's persisted finding carries a null
description — refuting the claim that the description is never null. -/
theorem description_null_passthrough :
    ((analyze_contract freshRun sampleCode (.resp detOneFinding)
        (fun _ => .resp explNullDescription)).persisted.map
        (fun f => f.description)) = [JVal.null] ∧
    (analyze_contract freshRun sampleCode (.resp detOneFinding)
        (fun _ => .resp explNullDescription)).run.status = .completed :=
  ⟨rfl, rfl⟩

/-- C10 (amended): a persisted finding's description is the explanation's
`description` value when that key is bound, else the detection finding's
`brief_reason` when bound, else the empty string; it is therefore never
null provided neither the explanation's `description` nor the detection
finding's `brief_reason` is explicitly bound to JSON null (a null binding
is passed through by `dict.get`, see the counterexample). -/
theorem description_nonnull_fallback
    (run0 : RunState) (code dText : List Char) (dfs : List (List Char × JVal))
    (fl : List (List (List Char × JVal)))
    (explains : Nat → AIOutcome) (efsOf : Nat → List (List Char × JVal))
    (hdr : parse_json_response dText = .obj dfs)
    (hnoerr : pyHasKey dfs errorKey = false)
    (hvulns : pyGetD dfs vulnerabilitiesKey (.arr []) = .arr (fl.map .obj))
    (hnr : ∀ fs ∈ fl, normReady fs = true)
    (hex : ∀ k, k < fl.length → ∃ t, explains k = .resp t ∧
        parse_json_response t = .obj (efsOf k))
    (hnull : ∀ p ∈ fl.enumFrom 0,
        notNullBinding (pyLookup (efsOf p.1) descriptionKey) = true ∧
        notNullBinding (pyLookup p.2 briefReasonKey) = true) :
    ∀ f ∈ (analyze_contract run0 code (.resp dText) explains).persisted,
      f.description ≠ JVal.null := by
  rw [analyze_contract_success run0 code dText dfs fl explains efsOf hdr hnoerr hvulns hnr hex]
  intro f hf
  obtain ⟨p, hp, rfl⟩ := List.mem_map.mp hf
  obtain ⟨hn1, hn2⟩ := hnull p hp
  show pyGetD (efsOf p.1) descriptionKey (pyGetD p.2 briefReasonKey (.str [])) ≠ JVal.null
  unfold pyGetD
  cases hl : pyLookup (efsOf p.1) descriptionKey with
  | some v =>
    rw [hl] at hn1
    cases v with
    | null => simp [notNullBinding] at hn1
    | bool b => simp
    | num n => simp
    | str s => simp
    | arr xs => simp
    | obj o => simp
  | none =>
    simp only [Option.getD_none]
    cases hl2 : pyLookup p.2 briefReasonKey with
    | some w =>
      rw [hl2] at hn2
      cases w with
      | null => simp [notNullBinding] at hn2
      | bool b => simp
      | num n => simp
      | str s => simp
      | arr xs => simp
      | obj o => simp
    | none => simp

/-- Witness for the description-fallback theorem: one finding whose
explanation binds `description` to a string; the one persisted finding's
description is not null. -/
theorem description_nonnull_fallback_witness :
    (mkVulnPure detOneFields [(descriptionKey, .str "overview".data)]).description ≠
      JVal.null :=
  description_nonnull_fallback freshRun sampleCode detOneFinding detOneDfs [detOneFields]
    (fun _ => .resp "\x7b\"description\": \"overview\"\x7d".data)
    (fun _ => [(descriptionKey, .str "overview".data)])
    rfl (by decide) rfl (by decide)
    (fun _ _ => ⟨"\x7b\"description\": \"overview\"\x7d".data, rfl, rfl⟩) (by decide)
    (mkVulnPure detOneFields [(descriptionKey, .str "overview".data)])
    (by
      rw [show (analyze_contract freshRun sampleCode (.resp detOneFinding)
          (fun _ => .resp "\x7b\"description\": \"overview\"\x7d".data)).persisted =
          [mkVulnPure detOneFields [(descriptionKey, .str "overview".data)]] from rfl]
      exact List.mem_singleton.mpr rfl)
